import Mathlib

/-!
Shallow embedding of the `statsd` Go client (files `conn.go`, `statsd.go`).

Modelling conventions:
* `int64` / `time.Duration` values are `Int` (no arithmetic in the code can
  overflow for the inputs exercised here); `float32` / `float64` values are
  `ℚ` (every finite IEEE float is an exact rational, and the code only
  compares floats and prints them).
* The UDP socket is a trace: `Client.send` appends the encoded datagram to
  `Client.trace`; a `Write` that reaches the socket is modelled as succeeding.
* `shouldFire`'s call to `fireRand.Float32()` is modelled by threading the
  drawn random value `rnd : ℚ` into each sampling function.
* Go panics (nil-pointer dereference of `config` inside `getClient`) are
  modelled by `Option`: `none` is a panic.
* The field `prefix` of `Client` is named `pfx` here.
-/

namespace Statsd

/-- Error values of `conn.go` (`ErrNotConnected`, `ErrInvalidCount`,
`ErrInvalidSampleRate`). -/
inductive Err where
  | notConnected
  | invalidCount
  | invalidSampleRate
deriving DecidableEq

/-- Values carried through the Go `interface{}` argument of `send`:
either an integer (`int`/`int64`) or a float (`float64`, modelled as `ℚ`). -/
inductive GoValue where
  | i : Int → GoValue
  | f : ℚ → GoValue
deriving DecidableEq

/-- The `metricType` enumeration of `statsd.go`. -/
inductive MetricType where
  | count
  | gauge
  | fgauge
  | timer
deriving DecidableEq

/-- One pending counter bucket (`countBuffer` in `conn.go`). -/
structure CountBuffer where
  name : String
  count : Int
deriving DecidableEq

/-- The `Client` of `conn.go`: address is irrelevant to the model, the
connection is a `connected` flag plus the trace of datagrams written. -/
structure Client where
  pfx : String
  connected : Bool
  buffer : List CountBuffer
  trace : List String
deriving DecidableEq

/-- The `Config` struct of `statsd.go`. -/
structure Config where
  Host : String
  Port : Int
  Project : String
  Enable : Bool
  SampleRate : ℚ
deriving DecidableEq

/-- One element of the dispatch channel `sendCh` (`sendItem` in `statsd.go`). -/
structure SendItem where
  stat : String
  val : GoValue
  t : MetricType
  sampleRate : ℚ
deriving DecidableEq

/-- Package-level state of `statsd.go`: the `config` and `addr` globals, the
lazily created singleton client (`once` / `defaultClient`), the
`sendLoopOnce` flag and the contents of the channel `sendCh`. -/
structure Pkg where
  config : Option Config
  addr : String
  client : Client
  clientInit : Bool
  sendLoopStarted : Bool
  queue : List SendItem
deriving DecidableEq

/-- Decimal digit character for `n % 10`. -/
def dig (n : Nat) : Char := Char.ofNat (48 + n % 10)

/-- Exactly six decimal digits of `n < 1000000`, zero padded on the left:
the fractional part produced by Go's `%f` verb. -/
def frac6 (n : Nat) : String :=
  ⟨[dig (n / 100000), dig (n / 10000), dig (n / 1000),
    dig (n / 100), dig (n / 10), dig n]⟩

/-- Magnitude of a float modelled as `ℚ`, scaled by `10^6` and rounded to
nearest with ties to even — the digits Go's `%f` verb prints.  Computed
directly on the numerator and denominator. -/
def scale6 (q : ℚ) : Nat :=
  let n := q.num.natAbs * 1000000
  let d := q.den
  let fl := n / d
  let r2 := 2 * (n % d)
  if r2 < d then fl else if d < r2 then fl + 1
  else if fl % 2 = 0 then fl else fl + 1

/-- Go's `fmt` verb `%f` (default precision 6) on a float modelled as `ℚ`:
sign, integer part, and exactly six digits after the decimal point. -/
def formatF6 (q : ℚ) : String :=
  ((if q.num < 0 then ("-") else ("")) ++ toString (scale6 q / 1000000)) ++
    ((".") ++ frac6 (scale6 q % 1000000))

/-- Number of fractional decimal digits of a rational with denominator `d`:
the least `j` with `d ∣ 10^j`, searched with fuel (`p` is the running power
of ten); `none` when the expansion does not terminate within the fuel. -/
def decDigitsAux (d : Nat) (p : Nat) : Nat → Option Nat
  | 0 => if p % d = 0 then some 0 else none
  | fuel + 1 => if p % d = 0 then some 0
                else (decDigitsAux d (p * 10) fuel).map (· + 1)

/-- Go's `fmt` verb `%v` on a float modelled as `ℚ`: the exact finite decimal
expansion (every IEEE float has one; 1100 digits of fuel covers `float64`),
with no decimal point for integral values — e.g. `-3` prints as `-3` and
`100.5` as `100.5`, as Go prints those doubles. -/
def renderGoFloat (q : ℚ) : String :=
  let sign := if q.num < 0 then ("-") else ("")
  let n := q.num.natAbs
  let d := q.den
  match decDigitsAux d 1 1100 with
  | some 0 => sign ++ toString n
  | some k =>
      let m := n * 10 ^ k / d
      let s0 := toString m
      let s := String.mk (List.replicate (k + 1 - s0.length) ('0')) ++ s0
      sign ++ String.mk (s.data.take (s.data.length - k)) ++ (".")
           ++ String.mk (s.data.drop (s.data.length - k))
  | none => sign ++ toString n ++ ("/") ++ toString d

/-- Go's `%v` on the `interface{}` value handed to `Client.send`. -/
def renderValue : GoValue → String
  | GoValue.i n => toString n
  | GoValue.f q => renderGoFloat q

/-- The metric line built by `Client.send` (`conn.go:217-221`):
`fmt.Sprintf("%s:%v|%s|@%f", bucket, value, t, sampleRate)` after the
optional `"%s.%s"` prefix join. -/
def encode (pfx bucket : String) (value : GoValue) (t : String) (sampleRate : ℚ) : String :=
  let b := if pfx ≠ ("") then pfx ++ (".") ++ bucket else bucket
  b ++ (":") ++ renderValue value ++ ("|") ++ t ++ ("|@") ++ formatF6 sampleRate

/-- Client.send (`conn.go:212-225`): fail with `ErrNotConnected` on a nil
connection, otherwise write one encoded datagram. -/
def Client.send (c : Client) (bucket : String) (value : GoValue) (t : String)
    (sampleRate : ℚ) : Client × Option Err :=
  if c.connected = false then (c, some Err.notConnected)
  else ({ c with trace := c.trace ++ [encode c.pfx bucket value t sampleRate] }, none)

/-- checkCount (`conn.go:227-233`). -/
def checkCount (c : Int) : Option Err :=
  if c ≤ 0 then some Err.invalidCount else none

/-- checkSampleRate (`conn.go:235-241`). -/
def checkSampleRate (r : ℚ) : Option Err :=
  if r < 0 ∨ 1 < r then some Err.invalidSampleRate else none

/-- shouldFire (`conn.go:250-259`); `rnd` is the value drawn from
`fireRand.Float32()` (not drawn at all when the rate is 1). -/
def shouldFire (sampleRate rnd : ℚ) : Bool :=
  if sampleRate = 1 then true else decide (rnd ≤ sampleRate)

/-- The loop body of `addToBuffer` (`conn.go:72-83`): the first bucket whose
name matches is incremented in place by one (`c.buffer[i].count++`); if none
matches, a bucket holding the full `count` is appended. -/
def addToBuf : List CountBuffer → String → Int → List CountBuffer
  | [], stat, count => [{ name := stat, count := count }]
  | b :: rest, stat, count =>
      if b.name = stat then { b with count := b.count + 1 } :: rest
      else b :: addToBuf rest stat count

/-- Client.addToBuffer (`conn.go:72-83`). -/
def Client.addToBuffer (c : Client) (stat : String) (count : Int) : Client :=
  { c with buffer := addToBuf c.buffer stat count }

/-- Client.IncrWithSampling (`conn.go:103-119`): validate the rate, maybe
skip by sampling, validate the count, then only buffer (the direct send is
commented out in the source). -/
def Client.IncrWithSampling (c : Client) (stat : String) (count : Int)
    (sampleRate rnd : ℚ) : Client × Option Err :=
  match checkSampleRate sampleRate with
  | some err => (c, some err)
  | none =>
      if !(shouldFire sampleRate rnd) then (c, none)
      else
        match checkCount count with
        | some err => (c, some err)
        | none => (Client.addToBuffer c stat count, none)

/-- Client.Incr (`conn.go:97-100`). -/
def Client.Incr (c : Client) (stat : String) (count : Int) (rnd : ℚ) :
    Client × Option Err :=
  Client.IncrWithSampling c stat count 1 rnd

/-- Client.DecrWithSampling (`conn.go:126-141`): same validation as Incr but
sends the negated count immediately, bypassing the buffer. -/
def Client.DecrWithSampling (c : Client) (stat : String) (count : Int)
    (sampleRate rnd : ℚ) : Client × Option Err :=
  match checkSampleRate sampleRate with
  | some err => (c, some err)
  | none =>
      if !(shouldFire sampleRate rnd) then (c, none)
      else
        match checkCount count with
        | some err => (c, some err)
        | none => Client.send c stat (GoValue.i (-count)) ("c") sampleRate

/-- Client.Decr (`conn.go:121-124`). -/
def Client.Decr (c : Client) (stat : String) (count : Int) (rnd : ℚ) :
    Client × Option Err :=
  Client.DecrWithSampling c stat count 1 rnd

/-- Client.TimingWithSampling (`conn.go:149-160`). -/
def Client.TimingWithSampling (c : Client) (stat : String) (delta : Int)
    (sampleRate rnd : ℚ) : Client × Option Err :=
  match checkSampleRate sampleRate with
  | some err => (c, some err)
  | none =>
      if !(shouldFire sampleRate rnd) then (c, none)
      else Client.send c stat (GoValue.i delta) ("ms") sampleRate

/-- Client.GaugeWithSampling (`conn.go:172-187`): a negative value is
preceded by a reset line `send(stat, 0, "g", 1)` whose error is discarded. -/
def Client.GaugeWithSampling (c : Client) (stat : String) (value : Int)
    (sampleRate rnd : ℚ) : Client × Option Err :=
  match checkSampleRate sampleRate with
  | some err => (c, some err)
  | none =>
      if !(shouldFire sampleRate rnd) then (c, none)
      else
        let c1 := if value < 0 then (Client.send c stat (GoValue.i 0) ("g") 1).1 else c
        Client.send c1 stat (GoValue.i value) ("g") sampleRate

/-- Client.FGaugeWithSampling (`conn.go:194-209`); the reset line carries the
untyped Go constant `0`, an `int`. -/
def Client.FGaugeWithSampling (c : Client) (stat : String) (value : ℚ)
    (sampleRate rnd : ℚ) : Client × Option Err :=
  match checkSampleRate sampleRate with
  | some err => (c, some err)
  | none =>
      if !(shouldFire sampleRate rnd) then (c, none)
      else
        let c1 := if value < 0 then (Client.send c stat (GoValue.i 0) ("g") 1).1 else c
        Client.send c1 stat (GoValue.f value) ("g") sampleRate

/-- One iteration of `bufferSendLoop` (`conn.go:56-70`): under the lock the
whole bucket list is swapped for the empty one, then outside the lock one
counter line per bucket is sent with type `"c"` and rate 1 (errors ignored). -/
def Client.flushStep (c : Client) : Client :=
  if c.buffer = [] then c
  else
    c.buffer.foldl
      (fun acc b => (Client.send acc b.name (GoValue.i b.count) ("c") 1).1)
      { c with buffer := [] }

/-- A sequence of `addToBuffer` calls (the producer side between flushes). -/
def applyAdds (c : Client) (adds : List (String × Int)) : Client :=
  adds.foldl (fun acc a => Client.addToBuffer acc a.1 a.2) c

/-- The bucket list built by a sequence of `addToBuffer` calls starting from
an empty buffer. -/
def buildBuf (adds : List (String × Int)) : List CountBuffer :=
  adds.foldl (fun l a => addToBuf l a.1 a.2) []

/-- Right-trim of `"."` characters, `strings.TrimRight(prefix, ".")` in
`newClient` (`conn.go:37`). -/
def trimDots (s : String) : String :=
  String.mk (s.data.reverse.dropWhile (fun ch => ch = ('.'))).reverse

/-- getClient (`statsd.go:189-198`) together with `newClient`: on first use
it reads `config.Project` — a nil `config` is a nil-pointer panic, modelled
as `none`; the UDP dial is modelled as succeeding. -/
def getClient (p : Pkg) : Option (Client × Pkg) :=
  if p.clientInit then some (p.client, p)
  else
    match p.config with
    | none => none
    | some cfg =>
        let c : Client :=
          { pfx := trimDots cfg.Project, connected := true, buffer := [], trace := [] }
        some (c, { p with client := c, clientInit := true })

/-- Setup (`statsd.go:26-36`). -/
def Setup (p : Pkg) (cfg : Config) : Pkg :=
  let cfg := if cfg.SampleRate = 0 then { cfg with SampleRate := 1 } else cfg
  { p with config := some cfg, addr := cfg.Host ++ (":") ++ toString cfg.Port }

/-- Capacity of the dispatch channel `sendCh` (`statsd.go:213`). -/
def chanCap : Nat := 1024

/-- The non-blocking push `select { case sendCh <- item: default: }` of
`sendAsync` (`statsd.go:222-225`) on a channel of capacity 1024. -/
def chanTrySend (q : List SendItem) (item : SendItem) : List SendItem :=
  if q.length < chanCap then q ++ [item] else q

/-- sendAsync (`statsd.go:210-226`): on first call the worker is started
(which touches `getClient`, hence can panic on a nil config), then the item
is pushed without blocking, dropped when the channel is full. -/
def sendAsync (p : Pkg) (item : SendItem) : Option Pkg :=
  (if p.sendLoopStarted then some p
   else (getClient p).map (fun cp => { cp.2 with sendLoopStarted := true })).map
    (fun p1 => { p1 with queue := chanTrySend p1.queue item })

/-- Package-level send (`statsd.go:228-230`). -/
def send (p : Pkg) (item : SendItem) : Option Pkg := sendAsync p item

/-- sendEx (`statsd.go:232-257`), the dispatcher worker body: an empty name
is dropped, otherwise the item is routed by its metric type and dynamic
value type; client errors are discarded. -/
def sendEx (c : Client) (item : SendItem) (rnd : ℚ) : Client :=
  if item.stat = ("") then c
  else
    match item.t with
    | MetricType.count =>
        match item.val with
        | GoValue.i n => (Client.IncrWithSampling c item.stat n item.sampleRate rnd).1
        | _ => c
    | MetricType.gauge =>
        match item.val with
        | GoValue.i n => (Client.GaugeWithSampling c item.stat n item.sampleRate rnd).1
        | _ => c
    | MetricType.fgauge =>
        match item.val with
        | GoValue.f q => (Client.FGaugeWithSampling c item.stat q item.sampleRate rnd).1
        | _ => c
    | MetricType.timer =>
        match item.val with
        | GoValue.i n => (Client.TimingWithSampling c item.stat n item.sampleRate rnd).1
        | _ => c

/-- Package-level Incr (`statsd.go:47-50`): note there is no config check at
all here. -/
def Incr (p : Pkg) (stat : String) (rnd : ℚ) : Option Pkg :=
  (getClient p).map (fun cp => { cp.2 with client := (Client.Incr cp.1 stat 1 rnd).1 })

/-- Package-level IncrByVal (`statsd.go:52-59`): checks only that `config`
is non-nil, not `config.Enable`. -/
def IncrByVal (p : Pkg) (stat : String) (val : Int) (rnd : ℚ) : Option Pkg :=
  match p.config with
  | none => some p
  | some cfg =>
      (getClient p).map
        (fun cp =>
          { cp.2 with client := (Client.IncrWithSampling cp.1 stat val cfg.SampleRate rnd).1 })

/-- Package-level IncrWithSampling (`statsd.go:61-74`). -/
def IncrWithSampling (p : Pkg) (stat : String) (val : Int) (sampleRate rnd : ℚ) :
    Option Pkg :=
  match p.config with
  | none => some p
  | some cfg =>
      if !cfg.Enable then some p
      else if val = 0 then some p
      else
        (getClient p).map
          (fun cp =>
            { cp.2 with client := (Client.IncrWithSampling cp.1 stat val sampleRate rnd).1 })

/-- Package-level gauge helper (`statsd.go:138-140`). -/
def gauge (p : Pkg) (stat : String) (val : GoValue) (t : MetricType)
    (sampleRate : ℚ) : Option Pkg :=
  send p { stat := stat, val := val, t := t, sampleRate := sampleRate }

/-- Package-level GaugeWithSampling (`statsd.go:103-114`). -/
def GaugeWithSampling (p : Pkg) (stat : String) (val : Int) (sampleRate : ℚ) :
    Option Pkg :=
  match p.config with
  | none => some p
  | some cfg =>
      if !cfg.Enable then some p
      else gauge p stat (GoValue.i val) MetricType.gauge sampleRate

/-- Package-level Gauge (`statsd.go:76-83`). -/
def Gauge (p : Pkg) (stat : String) (val : Int) : Option Pkg :=
  match p.config with
  | none => some p
  | some cfg => GaugeWithSampling p stat val cfg.SampleRate

/-- Package-level FGaugeWithSampling (`statsd.go:125-136`). -/
def FGaugeWithSampling (p : Pkg) (stat : String) (val : ℚ) (sampleRate : ℚ) :
    Option Pkg :=
  match p.config with
  | none => some p
  | some cfg =>
      if !cfg.Enable then some p
      else gauge p stat (GoValue.f val) MetricType.fgauge sampleRate

/-- Package-level FGauge (`statsd.go:116-123`). -/
def FGauge (p : Pkg) (stat : String) (val : ℚ) : Option Pkg :=
  match p.config with
  | none => some p
  | some cfg => FGaugeWithSampling p stat val cfg.SampleRate

/-- Package-level TimingByValueWithSampling (`statsd.go:151-165`): the
duration in nanoseconds is divided by `time.Millisecond` with Go's
truncating integer division. -/
def TimingByValueWithSampling (p : Pkg) (stat : String) (d : Int)
    (sampleRate : ℚ) : Option Pkg :=
  match p.config with
  | none => some p
  | some cfg =>
      if !cfg.Enable then some p
      else send p { stat := stat, val := GoValue.i (Int.tdiv d 1000000),
                    t := MetricType.timer, sampleRate := sampleRate }

/-- Package-level TimingByValue (`statsd.go:142-149`). -/
def TimingByValue (p : Pkg) (stat : String) (d : Int) : Option Pkg :=
  match p.config with
  | none => some p
  | some cfg => TimingByValueWithSampling p stat d cfg.SampleRate

/-- Package-level TimingWithSampling (`statsd.go:176-179`): times are
nanosecond instants, `t2.Sub(t1) = t2 - t1`. -/
def TimingWithSampling (p : Pkg) (stat : String) (t1 t2 : Int)
    (sampleRate : ℚ) : Option Pkg :=
  TimingByValueWithSampling p stat (t2 - t1) sampleRate

/-- Package-level Timing (`statsd.go:167-174`). -/
def Timing (p : Pkg) (stat : String) (t1 t2 : Int) : Option Pkg :=
  match p.config with
  | none => some p
  | some cfg => TimingWithSampling p stat t1 t2 cfg.SampleRate

/-- A connected client with an empty buffer and trace, used as a concrete
starting state. -/
def cW : Client :=
  { pfx := ("p"), connected := true, buffer := [], trace := [] }

/-- A client with the empty metric name prefix, for concrete wire lines. -/
def gEx : Client :=
  { pfx := (""), connected := true, buffer := [], trace := [] }

/-- A connected client holding one pending counter bucket. -/
def c5w : Client :=
  { pfx := ("p"), connected := true, buffer := [{ name := ("a"), count := 2 }], trace := [] }

/-- A configuration with `Enable = false`. -/
def cfgDisabled : Config :=
  { Host := ("h"), Port := 1, Project := ("stats"), Enable := false, SampleRate := 1 }

/-- Package state after `Setup` with a disabled config, client already
initialised, nothing pending anywhere. -/
def pkgDisabled : Pkg :=
  { config := some cfgDisabled, addr := ("h:1"),
    client := { pfx := ("stats"), connected := true, buffer := [], trace := [] },
    clientInit := true, sendLoopStarted := false, queue := [] }

/-- Package state before `Setup` was ever called (`config` is nil). -/
def pkgNil : Pkg :=
  { config := none, addr := (""),
    client := { pfx := (""), connected := true, buffer := [], trace := [] },
    clientInit := false, sendLoopStarted := false, queue := [] }

/-- Package state whose dispatch worker is already running. -/
def pkgStarted : Pkg :=
  { config := none, addr := (""),
    client := { pfx := (""), connected := true, buffer := [], trace := [] },
    clientInit := true, sendLoopStarted := true, queue := [] }

/-- A concrete counter item for the dispatch queue. -/
def item6 : SendItem :=
  { stat := ("x"), val := GoValue.i 1, t := MetricType.count, sampleRate := 1 }

lemma getClient_queue {p : Pkg} {cl : Client} {p2 : Pkg}
    (h : getClient p = some (cl, p2)) : p2.queue = p.queue := by
  unfold getClient at h
  by_cases hs : p.clientInit
  · rw [if_pos hs] at h
    injection h with h1
    rw [← (Prod.mk.injEq ..).mp h1 |>.2]
  · rw [if_neg hs] at h
    cases hc : p.config with
    | none => rw [hc] at h; cases h
    | some cfg =>
        rw [hc] at h
        injection h with h1
        rw [← (Prod.mk.injEq ..).mp h1 |>.2]

/-- C2: the aggregation buffer does NOT hold the sum of the deltas — the
second `add("a", 5)` hits the in-place branch `c.buffer[i].count++` of
`addToBuffer` and increments the pending count by one instead of by the
delta, leaving 6 where the claimed invariant requires 10. -/
theorem addToBuffer_second_add_ignores_delta :
    addToBuf (addToBuf [] ("a") 5) ("a") 5 = [{ name := ("a"), count := 6 }] ∧
    (6 : Int) ≠ 5 + 5 := by decide

/-- C6: `sendAsync` never blocks: whenever it returns (it only fails to by
panicking on a nil config during lazy worker start-up), the channel content
is `chanTrySend` of the old content — the item is appended when fewer than
1024 items are queued, and the queue is left unchanged (the item dropped)
when it is full. -/
theorem sendAsync_never_blocks (p : Pkg) (item : SendItem) :
    (∀ p1 : Pkg, sendAsync p item = some p1 → p1.queue = chanTrySend p.queue item) ∧
    (p.queue.length < chanCap → chanTrySend p.queue item = p.queue ++ [item]) ∧
    (chanCap ≤ p.queue.length → chanTrySend p.queue item = p.queue) := by
  refine ⟨?_, ?_, ?_⟩
  · intro p1 h
    unfold sendAsync at h
    by_cases hs : p.sendLoopStarted
    · simp only [hs, if_true, Option.map_some] at h
      injection h with h1
      rw [← h1]
    · simp only [hs, if_false, Option.map_map] at h
      cases hg : getClient p with
      | none => rw [hg] at h; cases h
      | some cp =>
          rw [hg] at h
          injection h with h1
          rw [← h1]
          simp only []
          rw [getClient_queue (by rw [hg])]
  · intro h; unfold chanTrySend; rw [if_pos h]
  · intro h; unfold chanTrySend; rw [if_neg (by omega)]

/-- Witness for C6 at a concrete started dispatcher with an empty queue. -/
theorem sendAsync_never_blocks_witness :
    chanTrySend pkgStarted.queue item6 = pkgStarted.queue ++ [item6] :=
  (sendAsync_never_blocks pkgStarted item6).2.1 (by decide)

/-- C7: `checkSampleRate` rejects exactly the rates outside `[0,1]` with
`InvalidSampleRate` (accepting every rate in `[0,1]`), and `checkCount`
rejects exactly the non-positive counts with `InvalidCount`. -/
theorem checkSampleRate_checkCount_spec (r : ℚ) (k : Int) :
    (checkSampleRate r = some Err.invalidSampleRate ↔ (r < 0 ∨ 1 < r)) ∧
    (checkSampleRate r = none ↔ (0 ≤ r ∧ r ≤ 1)) ∧
    (checkCount k = some Err.invalidCount ↔ k ≤ 0) ∧
    (checkCount k = none ↔ 0 < k) := by
  unfold checkSampleRate checkCount
  refine ⟨?_, ?_, ?_, ?_⟩
  · split <;> rename_i h <;> simp [h]
  · split <;> rename_i h
    · constructor
      · intro hh; simp at hh
      · rintro ⟨h0, h1⟩
        rcases h with h | h <;> linarith
    · constructor
      · intro _
        push_neg at h
        exact h
      · intro _; rfl
  · split <;> rename_i h <;> simp [h]
  · split <;> rename_i h
    · constructor
      · intro hh; simp at hh
      · intro hh; omega
    · constructor
      · intro _; omega
      · intro _; rfl

/-- Witness for C7 at the spec's concrete inputs 1.5, -0.1 and 0. -/
theorem checkSampleRate_checkCount_spec_witness :
    checkSampleRate (mkRat 3 2) = some Err.invalidSampleRate ∧
    checkSampleRate (mkRat (-1) 10) = some Err.invalidSampleRate ∧
    checkCount 0 = some Err.invalidCount :=
  ⟨(checkSampleRate_checkCount_spec (mkRat 3 2) 0).1.mpr (by decide),
   (checkSampleRate_checkCount_spec (mkRat (-1) 10) 1).1.mpr (by decide),
   (checkSampleRate_checkCount_spec 1 0).2.2.1.mpr (by decide)⟩

/-- C8: the dispatcher worker `sendEx` silently drops an item whose metric
name is empty: the client is returned untouched, so nothing is buffered,
nothing is sent and no error can arise. -/
theorem sendEx_drops_empty_name (c : Client) (item : SendItem) (rnd : ℚ)
    (h : item.stat = ("")) : sendEx c item rnd = c := by
  unfold sendEx
  rw [if_pos h]

/-- Witness for C8 at a concrete empty-named counter item. -/
theorem sendEx_drops_empty_name_witness :
    sendEx cW { stat := (""), val := GoValue.i 1, t := MetricType.count, sampleRate := 1 } 1 = cW :=
  sendEx_drops_empty_name cW _ 1 rfl

/-- C9: whenever `Client.IncrWithSampling` returns an error (invalid sample
rate or invalid count), the client — and with it the counter aggregation
buffer — is exactly as it was before the call. -/
theorem incrWithSampling_error_leaves_state (c : Client) (stat : String)
    (count : Int) (sampleRate rnd : ℚ) (e : Err)
    (h : (Client.IncrWithSampling c stat count sampleRate rnd).2 = some e) :
    (Client.IncrWithSampling c stat count sampleRate rnd).1 = c := by
  unfold Client.IncrWithSampling at h ⊢
  cases hr : checkSampleRate sampleRate with
  | some err => rfl
  | none =>
      rw [hr] at h
      by_cases hf : shouldFire sampleRate rnd = true
      · simp only [hf, Bool.not_true, Bool.false_eq_true, if_false] at h ⊢
        cases hc : checkCount count with
        | some err => rfl
        | none => rw [hc] at h; simp at h
      · simp only [Bool.not_eq_true] at hf
        simp [hf] at h

/-- Witness for C9 at a concrete invalid sample rate of 1.5. -/
theorem incrWithSampling_error_leaves_state_witness :
    (Client.IncrWithSampling cW ("x") 5 (mkRat 3 2) 1).1 = cW :=
  incrWithSampling_error_leaves_state cW ("x") 5 (mkRat 3 2) 1
    Err.invalidSampleRate (by decide)

/-- C10: with a valid sample rate that fires and a positive count,
`Client.DecrWithSampling` immediately writes a single counter line carrying
the negated count at the caller's rate and never touches the aggregation
buffer, whereas `Client.IncrWithSampling` under the same conditions only
buffers and writes nothing. -/
theorem decrWithSampling_sends_immediately (c : Client) (stat : String)
    (count : Int) (sampleRate rnd : ℚ) (hconn : c.connected = true)
    (hrate : checkSampleRate sampleRate = none)
    (hfire : shouldFire sampleRate rnd = true) (hcount : 0 < count) :
    Client.DecrWithSampling c stat count sampleRate rnd =
      ({ c with trace := c.trace ++ [encode c.pfx stat (GoValue.i (-count)) ("c") sampleRate] },
        none) ∧
    (Client.DecrWithSampling c stat count sampleRate rnd).1.buffer = c.buffer ∧
    (Client.IncrWithSampling c stat count sampleRate rnd).1.trace = c.trace := by
  have hcc : checkCount count = none := by
    unfold checkCount
    rw [if_neg (by omega)]
  have hd : Client.DecrWithSampling c stat count sampleRate rnd =
      ({ c with trace := c.trace ++ [encode c.pfx stat (GoValue.i (-count)) ("c") sampleRate] },
        none) := by
    unfold Client.DecrWithSampling
    rw [hrate, hfire]
    simp only [Bool.not_true, Bool.false_eq_true, if_false]
    rw [hcc]
    simp [Client.send, hconn]
  refine ⟨hd, by rw [hd], ?_⟩
  unfold Client.IncrWithSampling
  rw [hrate, hfire]
  simp only [Bool.not_true, Bool.false_eq_true, if_false]
  rw [hcc]
  rfl

/-- Witness for C10 at a concrete decrement of 2 at rate 1. -/
theorem decrWithSampling_sends_immediately_witness :
    Client.DecrWithSampling cW ("x") 2 1 1 =
      ({ cW with trace := cW.trace ++ [encode cW.pfx ("x") (GoValue.i (-2)) ("c") 1] }, none) :=
  (decrWithSampling_sends_immediately cW ("x") 2 1 1 rfl (by decide) (by decide) (by decide)).1

/-- C3: a gauge (integer or float) with a valid firing sample rate and a
negative value writes exactly two lines in order: a reset line with value 0,
type `"g"` and rate 1, then the line with the negative value at the caller's
rate; at rate 1 and value -3 the concrete datagrams are
`"x:0|g|@1.000000"` then `"x:-3|g|@1.000000"`. -/
theorem gauge_negative_emits_reset_then_value (c : Client) (stat : String)
    (v : Int) (q : ℚ) (sampleRate rnd : ℚ) (hconn : c.connected = true)
    (hrate : checkSampleRate sampleRate = none)
    (hfire : shouldFire sampleRate rnd = true) (hv : v < 0) (hq : q < 0) :
    Client.GaugeWithSampling c stat v sampleRate rnd =
      ({ c with trace := c.trace ++ [encode c.pfx stat (GoValue.i 0) ("g") 1,
                                     encode c.pfx stat (GoValue.i v) ("g") sampleRate] },
        none) ∧
    Client.FGaugeWithSampling c stat q sampleRate rnd =
      ({ c with trace := c.trace ++ [encode c.pfx stat (GoValue.i 0) ("g") 1,
                                     encode c.pfx stat (GoValue.f q) ("g") sampleRate] },
        none) ∧
    (Client.GaugeWithSampling gEx ("x") (-3) 1 1).1.trace =
      [("x:0|g|@1.000000"), ("x:-3|g|@1.000000")] := by
  refine ⟨?_, ?_, by decide⟩
  · unfold Client.GaugeWithSampling
    rw [hrate, hfire]
    simp only [Bool.not_true, Bool.false_eq_true, if_false]
    rw [if_pos hv]
    simp [Client.send, hconn]
  · unfold Client.FGaugeWithSampling
    rw [hrate, hfire]
    simp only [Bool.not_true, Bool.false_eq_true, if_false]
    rw [if_pos hq]
    simp [Client.send, hconn]

/-- Witness for C3 at value -3 and rate 1. -/
theorem gauge_negative_emits_reset_then_value_witness :
    Client.GaugeWithSampling gEx ("x") (-3) 1 1 =
      ({ gEx with trace := gEx.trace ++ [encode gEx.pfx ("x") (GoValue.i 0) ("g") 1,
                                         encode gEx.pfx ("x") (GoValue.i (-3)) ("g") 1] },
        none) :=
  (gauge_negative_emits_reset_then_value gEx ("x") (-3) (-3) 1 1 rfl (by decide)
    (by decide) (by decide) (by decide)).1

/-- C4: with a live connection `Client.send` writes exactly one datagram,
`"<pfx>.<stat>:<value>|<t>|@<rate>"` when the client prefix is non-empty and
`"<stat>:<value>|<t>|@<rate>"` otherwise; the sample rate is always rendered
with six digits after the decimal point, and the spec's concrete encoding
example evaluates to exactly `"app.user.login.count:5|c|@1.000000"`. -/
theorem send_encodes (c : Client) (stat : String) (v : GoValue) (t : String)
    (r : ℚ) (hconn : c.connected = true) :
    Client.send c stat v t r =
      ({ c with trace := c.trace ++ [encode c.pfx stat v t r] }, none) ∧
    (c.pfx = ("") →
      encode c.pfx stat v t r =
        stat ++ (":") ++ renderValue v ++ ("|") ++ t ++ ("|@") ++ formatF6 r) ∧
    (c.pfx ≠ ("") →
      encode c.pfx stat v t r =
        c.pfx ++ (".") ++ stat ++ (":") ++ renderValue v ++ ("|") ++ t ++ ("|@") ++ formatF6 r) ∧
    (∃ a b : String, formatF6 r = a ++ (".") ++ b ∧ b.length = 6) ∧
    encode ("app") ("user.login.count") (GoValue.i 5) ("c") 1 =
      ("app.user.login.count:5|c|@1.000000") := by
  refine ⟨?_, ?_, ?_, ?_, by decide⟩
  · simp [Client.send, hconn]
  · intro h
    simp [encode, h]
  · intro h
    simp [encode, h]
  · refine ⟨(if r.num < 0 then ("-") else ("")) ++ toString (scale6 r / 1000000),
      frac6 (scale6 r % 1000000), ?_, rfl⟩
    rw [String.append_assoc]
    rfl

lemma send_step (c : Client) (b : CountBuffer) (h : c.connected = true) :
    (Client.send c b.name (GoValue.i b.count) ("c") 1).1 =
      { c with trace := c.trace ++ [encode c.pfx b.name (GoValue.i b.count) ("c") 1] } := by
  simp [Client.send, h]

lemma sendFold_spec (l : List CountBuffer) (c : Client) (h : c.connected = true) :
    l.foldl (fun acc b => (Client.send acc b.name (GoValue.i b.count) ("c") 1).1) c =
      { c with trace :=
          c.trace ++ l.map (fun b => encode c.pfx b.name (GoValue.i b.count) ("c") 1) } := by
  induction l generalizing c with
  | nil => simp
  | cons b rest ih =>
      rw [List.foldl_cons, send_step c b h, ih _ (by exact h)]
      simp [List.append_assoc]

lemma flushStep_eq (c : Client) (h : c.connected = true) :
    Client.flushStep c =
      { c with buffer := [],
               trace := c.trace ++
                 c.buffer.map (fun b => encode c.pfx b.name (GoValue.i b.count) ("c") 1) } := by
  unfold Client.flushStep
  by_cases hb : c.buffer = []
  · rw [if_pos hb]
    have hmap : List.map (fun b => encode c.pfx b.name (GoValue.i b.count) ("c") 1) c.buffer
        = [] := by rw [hb]; rfl
    rw [hmap, List.append_nil, ← hb]
  · rw [if_neg hb, sendFold_spec _ _ (by exact h)]

lemma applyAdds_spec (adds : List (String × Int)) (c : Client) :
    applyAdds c adds =
      { c with buffer := adds.foldl (fun l a => addToBuf l a.1 a.2) c.buffer } := by
  induction adds generalizing c with
  | nil => rfl
  | cons a rest ih =>
      have h1 : applyAdds c (a :: rest) = applyAdds (Client.addToBuffer c a.1 a.2) rest := rfl
      rw [h1, ih]
      rfl

/-- C5: one flush step leaves the pending buffer empty and appends to the
wire trace exactly one counter line (type `"c"`, rate 1) per swapped bucket;
adds arriving after the swap form the next window's buffer, and two
consecutive flush steps emit the first window's buckets followed by the
adds' buckets — nothing lost, nothing sent twice. -/
theorem flush_emits_each_bucket_once (c : Client) (adds : List (String × Int))
    (hconn : c.connected = true) :
    (Client.flushStep c).buffer = [] ∧
    (Client.flushStep c).trace =
      c.trace ++ c.buffer.map (fun b => encode c.pfx b.name (GoValue.i b.count) ("c") 1) ∧
    (applyAdds (Client.flushStep c) adds).buffer = buildBuf adds ∧
    (Client.flushStep (applyAdds (Client.flushStep c) adds)).trace =
      (c.trace ++ c.buffer.map (fun b => encode c.pfx b.name (GoValue.i b.count) ("c") 1))
        ++ (buildBuf adds).map (fun b => encode c.pfx b.name (GoValue.i b.count) ("c") 1) := by
  rw [flushStep_eq c hconn, applyAdds_spec]
  refine ⟨rfl, rfl, rfl, ?_⟩
  rw [flushStep_eq _ (by exact hconn)]
  rfl

/-- Witness for C5: a flush of one pending bucket followed by one add and a
second flush. -/
theorem flush_emits_each_bucket_once_witness :
    (Client.flushStep c5w).buffer = [] ∧
    (Client.flushStep c5w).trace =
      c5w.trace ++ c5w.buffer.map (fun b => encode c5w.pfx b.name (GoValue.i b.count) ("c") 1) ∧
    (applyAdds (Client.flushStep c5w) [(("b"), 3)]).buffer = buildBuf [(("b"), 3)] ∧
    (Client.flushStep (applyAdds (Client.flushStep c5w) [(("b"), 3)])).trace =
      (c5w.trace ++ c5w.buffer.map (fun b => encode c5w.pfx b.name (GoValue.i b.count) ("c") 1))
        ++ (buildBuf [(("b"), 3)]).map
            (fun b => encode c5w.pfx b.name (GoValue.i b.count) ("c") 1) :=
  flush_emits_each_bucket_once c5w [(("b"), 3)] rfl

/-- Witness for C4 on a concrete client with prefix `"app"`. -/
theorem send_encodes_witness :
    Client.send { pfx := ("app"), connected := true, buffer := [], trace := [] }
        ("user.login.count") (GoValue.i 5) ("c") 1 =
      ({ (⟨("app"), true, [], []⟩ : Client) with
          trace := ([] : List String) ++
            [encode ("app") ("user.login.count") (GoValue.i 5) ("c") 1] }, none) :=
  (send_encodes ⟨("app"), true, [], []⟩ ("user.login.count") (GoValue.i 5) ("c") 1 rfl).1

/-- C1 (counterexample): with `Setup` done but `Config.Enable = false`,
`IncrByVal` is not a no-op — it forwards to the client and lands the
increment in the aggregation buffer (from where the flush loop will write it
to the network). -/
theorem incrByVal_not_noop_when_disabled :
    IncrByVal pkgDisabled ("login") 5 1 ≠ some pkgDisabled ∧
    (IncrByVal pkgDisabled ("login") 5 1).map (fun p => p.client.buffer) =
      some [{ name := ("login"), count := 5 }] := by decide

/-- C1 (amended): every emission function other than `Incr` is a no-op
(state unchanged, no error, nothing written) when `config` is nil, and every
one other than `Incr` and `IncrByVal` is also a no-op when `Config.Enable`
is false; `Incr` performs no configuration check at all, and `IncrByVal`
checks only for a nil config, not the enable flag. -/
theorem emission_noop_guards (p : Pkg) (stat : String) (v d t1 t2 : Int)
    (q sampleRate rnd : ℚ) :
    (p.config = none →
      IncrByVal p stat v rnd = some p ∧
      IncrWithSampling p stat v sampleRate rnd = some p ∧
      Gauge p stat v = some p ∧
      GaugeWithSampling p stat v sampleRate = some p ∧
      FGauge p stat q = some p ∧
      FGaugeWithSampling p stat q sampleRate = some p ∧
      TimingByValue p stat d = some p ∧
      TimingByValueWithSampling p stat d sampleRate = some p ∧
      Timing p stat t1 t2 = some p ∧
      TimingWithSampling p stat t1 t2 sampleRate = some p) ∧
    (∀ cfg : Config, p.config = some cfg → cfg.Enable = false →
      IncrWithSampling p stat v sampleRate rnd = some p ∧
      Gauge p stat v = some p ∧
      GaugeWithSampling p stat v sampleRate = some p ∧
      FGauge p stat q = some p ∧
      FGaugeWithSampling p stat q sampleRate = some p ∧
      TimingByValue p stat d = some p ∧
      TimingByValueWithSampling p stat d sampleRate = some p ∧
      Timing p stat t1 t2 = some p ∧
      TimingWithSampling p stat t1 t2 sampleRate = some p) := by
  constructor
  · intro h
    exact ⟨by simp [IncrByVal, h], by simp [IncrWithSampling, h], by simp [Gauge, h],
      by simp [GaugeWithSampling, h], by simp [FGauge, h], by simp [FGaugeWithSampling, h],
      by simp [TimingByValue, h], by simp [TimingByValueWithSampling, h],
      by simp [Timing, h], by simp [TimingWithSampling, TimingByValueWithSampling, h]⟩
  · intro cfg hc he
    exact ⟨by simp [IncrWithSampling, hc, he],
      by simp [Gauge, GaugeWithSampling, hc, he],
      by simp [GaugeWithSampling, hc, he],
      by simp [FGauge, FGaugeWithSampling, hc, he],
      by simp [FGaugeWithSampling, hc, he],
      by simp [TimingByValue, TimingByValueWithSampling, hc, he],
      by simp [TimingByValueWithSampling, hc, he],
      by simp [Timing, TimingWithSampling, TimingByValueWithSampling, hc, he],
      by simp [TimingWithSampling, TimingByValueWithSampling, hc, he]⟩

/-- Witness for the amended C1: a nil config makes `IncrByVal` a no-op, and
a disabled config makes `GaugeWithSampling` a no-op. -/
theorem emission_noop_guards_witness :
    IncrByVal pkgNil ("x") 5 1 = some pkgNil ∧
    GaugeWithSampling pkgDisabled ("x") 5 1 = some pkgDisabled :=
  ⟨((emission_noop_guards pkgNil ("x") 5 0 0 0 1 1 1).1 rfl).1,
   ((emission_noop_guards pkgDisabled ("x") 5 0 0 0 1 1 1).2 cfgDisabled rfl rfl).2.2.1⟩

end Statsd
